import Mathlib

/-!
Verification of the EvolutionSimulator core (gene packing, genome operators,
brain evaluation, selection predicates, reproduction, engine lifecycle).

Python floats are modelled as exact rationals (`ℚ`); Python's arbitrary
precision integers as `ℕ`/`ℤ`.  Python's `int()` conversion truncates toward
zero and is modelled by `ratTrunc`.  Python's `&` mask by an all-ones constant
and `%` by a positive modulus coincide with `Nat`/`Int` `&&&` and `%` (`Int`'s
`%` is `emod`, which matches Python's sign convention for positive moduli).
Transcendental functions (`math.tanh`, `math.sin`) and random draws are
passed in as explicit parameters, so every definition stays executable.
-/

/-- Truncation toward zero, the semantics of Python's `int(float)`. -/
def ratTrunc (q : ℚ) : ℤ := if 0 ≤ q then ⌊q⌋ else ⌈q⌉

/-- One gene: a directed weighted edge descriptor (`gene.py`, `Gene.__init__`).
`source_type`: 0 = neuron, 1 = sensor; `sink_type`: 0 = neuron, 1 = action. -/
structure Gene where
  source_type : ℕ
  source_id : ℕ
  sink_type : ℕ
  sink_id : ℕ
  weight : ℚ
deriving DecidableEq

instance : Inhabited Gene := ⟨⟨0, 0, 0, 0, 0⟩⟩

/-- `gene.py` line 26: `w_int = max(-32768, min(32767, int(self.weight / 4.0 * 32767)))`. -/
def weightCode (w : ℚ) : ℤ := max (-32768) (min 32767 (ratTrunc (w / 4 * 32767)))

/-- `Gene.to_int` (`gene.py` lines 24-34).  `w_int & 0xFFFF` is `w_int % 2^16`. -/
def Gene.to_int (g : Gene) : ℕ :=
  (g.source_type <<< 31) |||
  ((g.source_id &&& 127) <<< 24) |||
  (g.sink_type <<< 23) |||
  ((g.sink_id &&& 127) <<< 16) |||
  ((weightCode g.weight) % 65536).toNat

/-- `gene.py` line 48: `w_int = w_uint if w_uint < 32768 else w_uint - 65536`. -/
def decodeWInt (packed : ℕ) : ℤ :=
  if (packed &&& 65535) < 32768 then ((packed &&& 65535 : ℕ) : ℤ)
  else ((packed &&& 65535 : ℕ) : ℤ) - 65536

/-- `Gene.from_int` (`gene.py` lines 40-51). -/
def Gene.from_int (packed : ℕ) : Gene where
  source_type := (packed >>> 31) &&& 1
  source_id := (packed >>> 24) &&& 127
  sink_type := (packed >>> 23) &&& 1
  sink_id := (packed >>> 16) &&& 127
  weight := ((decodeWInt packed : ℤ) : ℚ) / 32767 * 4

/-- `Gene.copy` (`gene.py` lines 53-55): field-wise value copy. -/
def Gene.copy (g : Gene) : Gene :=
  ⟨g.source_type, g.source_id, g.sink_type, g.sink_id, g.weight⟩

/-- `Gene.mutate` (`gene.py` lines 57-67): flip one bit of the packed form and
decode; the flipped bit index is the random draw, passed explicitly. -/
def Gene.mutateBit (bit : ℕ) (g : Gene) : Gene :=
  Gene.from_int (g.to_int ^^^ (1 <<< bit))

/-- Spec-side weight code, following the spec's words in §6 (`round(weight/4.0
× 32767)` clamped to [-32768,32767]); to be compared with `weightCode`. -/
def specWeightCode (w : ℚ) : ℤ := max (-32768) (min 32767 (round (w / 4 * 32767)))

/-- A resolved connection as stored in `Brain.connections` (`brain.py` line 32). -/
structure Conn where
  source_type : ℕ
  source_id : ℕ
  sink_type : ℕ
  sink_id : ℕ
  weight : ℚ
deriving DecidableEq

/-- `Brain` state (`brain.py`): the resolved connection list plus the recurrent
neuron-output vector.  The Python dict `neuron_outputs` (keys
`0..num_internal-1`, read with `.get(_, 0.0)`) is modelled as a total function
that is zero off-range. -/
structure Brain where
  num_sensors : ℕ
  num_actions : ℕ
  num_internal : ℕ
  connections : List Conn
  neuron_outputs : ℕ → ℚ

/-- Resolution of one gene (`brain.py` lines 21-38): raw IDs fold by modulo
into the fixed sensor/action/internal index ranges. -/
def resolveGene (num_sensors num_actions num_internal : ℕ) (g : Gene) : Conn where
  source_type := g.source_type
  source_id :=
    if g.source_type = 1 then g.source_id % num_sensors else g.source_id % num_internal
  sink_type := g.sink_type
  sink_id :=
    if g.sink_type = 1 then g.sink_id % num_actions else g.sink_id % num_internal
  weight := g.weight

/-- `Brain.__init__` (`brain.py` lines 4-43). -/
def Brain.init (genome : List Gene) (num_sensors num_actions num_internal : ℕ) : Brain where
  num_sensors := num_sensors
  num_actions := num_actions
  num_internal := num_internal
  connections := genome.map (resolveGene num_sensors num_actions num_internal)
  neuron_outputs := fun _ => 0

/-- The value read for a connection's source (`brain.py` lines 68-71): sensor
sources read the supplied sensor map (missing keys read as 0.0), neuron
sources read the previous tick's stored neuron outputs. -/
def sourceValue (prev : ℕ → ℚ) (sensor_values : ℕ → Option ℚ) (c : Conn) : ℚ :=
  if c.source_type = 1 then (sensor_values c.source_id).getD 0 else prev c.source_id

/-- One loop iteration of `Brain.feed_forward` (`brain.py` lines 67-78): add
`signal = source_value * weight` into the neuron or action accumulator. -/
def accumulateConn (prev : ℕ → ℚ) (sensor_values : ℕ → Option ℚ)
    (acc : (ℕ → ℚ) × (ℕ → ℚ)) (c : Conn) : (ℕ → ℚ) × (ℕ → ℚ) :=
  if c.sink_type = 1 then
    (acc.1, Function.update acc.2 c.sink_id
      (acc.2 c.sink_id + sourceValue prev sensor_values c * c.weight))
  else
    (Function.update acc.1 c.sink_id
      (acc.1 c.sink_id + sourceValue prev sensor_values c * c.weight), acc.2)

/-- `Brain.feed_forward` (`brain.py` lines 46-89), with `math.tanh` passed in
as the parameter `squash` (a pure function, so the pass is deterministic by
construction).  Returns the updated brain (new stored neuron outputs) and the
action-output map. -/
def Brain.feed_forward (squash : ℚ → ℚ) (b : Brain) (sensor_values : ℕ → Option ℚ) :
    Brain × (ℕ → ℚ) :=
  let acc := b.connections.foldl (accumulateConn b.neuron_outputs sensor_values)
    (fun _ => 0, fun _ => 0)
  ({ b with neuron_outputs := fun i => if i < b.num_internal then squash (acc.1 i) else 0 },
   fun j => if j < b.num_actions then squash (acc.2 j) else 0)

/-- Reference accumulator value: the sum, over the connections with the given
sink kind (action when `isAction`, neuron otherwise) and sink index, of
`source_value * weight` read against the pre-pass neuron outputs `prev`. -/
def sinkSum (prev : ℕ → ℚ) (sensor_values : ℕ → Option ℚ) (conns : List Conn)
    (isAction : Bool) (idx : ℕ) : ℚ :=
  ((conns.filter fun c => (decide (c.sink_type = 1) == isAction) && (c.sink_id == idx))).map
    (fun c => sourceValue prev sensor_values c * c.weight) |>.sum

/-- Concrete brain used to witness the feed-forward reference theorem. -/
def witnessBrain : Brain where
  num_sensors := 2
  num_actions := 2
  num_internal := 1
  connections := [⟨1, 0, 1, 1, 2⟩, ⟨0, 0, 1, 1, 3⟩, ⟨1, 1, 0, 0, 5⟩]
  neuron_outputs := fun _ => 1

/-- Concrete sensor map (key 1 deliberately missing) for the same witness. -/
def witnessSensors : ℕ → Option ℚ := fun k => if k = 0 then some (1 / 2) else none

/-- `Genome.crossover` (`genome.py` lines 30-45), with the two `randint` cut
points `ca ∈ [0, len a]`, `cb ∈ [0, len b]` and the fallback `Gene.random()`
passed explicitly.  The child deep-copies `a[:ca]` and `b[cb:]`. -/
def Genome.crossover (ca cb : ℕ) (fallback : Gene) (a b : List Gene) : List Gene :=
  let child := (a.take ca).map Gene.copy ++ (b.drop cb).map Gene.copy
  let child2 := if child.length > 50 then child.take 50 else child
  if child2.length = 0 then [fallback] else child2

/-- The random draws of one `Genome.mutate` call (`genome.py` lines 15-28):
per-gene point-mutation coin and bit choice, then the deletion coin and index
(`randint(0, len-1)`, modelled as the oracle value mod the length), then the
insertion coin and the inserted random gene. -/
structure MutRand where
  pointFlip : ℕ → Bool
  pointBit : ℕ → ℕ
  delFlip : Bool
  delIdx : ℕ
  insFlip : Bool
  insGene : Gene

/-- `Genome.mutate` (`genome.py` lines 15-28): point mutations on every gene
whose coin fires, then at most one deletion (only if length > 1), then at
most one insertion (only if length < 50). -/
def Genome.mutate (r : MutRand) (genes : List Gene) : List Gene :=
  let g1 := genes.mapIdx fun i g => if r.pointFlip i then Gene.mutateBit (r.pointBit i) g else g
  let g2 := if r.delFlip ∧ g1.length > 1 then g1.eraseIdx (r.delIdx % g1.length) else g1
  if r.insFlip ∧ g2.length < 50 then g2 ++ [r.insGene] else g2

/-- `Simulation._survives` (`simulation.py` lines 207-246) as a function of
the raw `IntEnum` selection value, world size and final agent position.
Python `//` on the nonnegative dimensions is `Nat` division; `CENTER_CIRCLE`
uses float (here exact rational) division. -/
def survives (selection : ℕ) (w h : ℕ) (x y : ℤ) : Bool :=
  if selection = 0 then decide (x ≥ ((w / 2 : ℕ) : ℤ))
  else if selection = 1 then decide (x < ((w / 2 : ℕ) : ℤ))
  else if selection = 2 then
    decide (((x : ℚ) - (w : ℚ) / 2) ^ 2 + ((y : ℚ) - (h : ℚ) / 2) ^ 2
      ≤ (((min w h : ℕ) : ℚ) / 4) ^ 2)
  else if selection = 3 then
    decide ((x < ((w / 4 : ℕ) : ℤ) ∨ x ≥ (w : ℤ) - ((w / 4 : ℕ) : ℤ)) ∧
      (y < ((h / 4 : ℕ) : ℤ) ∨ y ≥ (h : ℤ) - ((h / 4 : ℕ) : ℤ)))
  else if selection = 4 then decide (x ≥ ((w * 3 / 4 : ℕ) : ℤ))
  else true

-- ── engine-level embedding: grid, individual, simulation ──

/-- `individual.py` line 28: 12 sensors. -/
def NUM_SENSORS : ℕ := 12

/-- `individual.py` line 27: 5 actions. -/
def NUM_ACTIONS : ℕ := 5

/-- `individual.py` line 29: the module constant `NUM_INTERNAL = 4`. -/
def NUM_INTERNAL : ℕ := 4

/-- `Grid` (`grid.py`): occupancy map (0 = empty, i+1 = creature i) plus the
barrier set, both as total functions over integer coordinates. -/
structure Grid where
  width : ℕ
  height : ℕ
  data : ℤ → ℤ → ℕ
  barriers : ℤ → ℤ → Bool

/-- `Grid.__init__` (`grid.py` lines 4-8): all cells empty, no barriers. -/
def Grid.init (w h : ℕ) : Grid := ⟨w, h, fun _ _ => 0, fun _ _ => false⟩

/-- `Grid.in_bounds` (`grid.py` lines 10-12). -/
def Grid.in_bounds (g : Grid) (x y : ℤ) : Bool :=
  decide (0 ≤ x ∧ x < (g.width : ℤ) ∧ 0 ≤ y ∧ y < (g.height : ℤ))

/-- `Grid.is_empty` (`grid.py` lines 14-16). -/
def Grid.is_empty (g : Grid) (x y : ℤ) : Bool :=
  (g.data x y == 0) && !(g.barriers x y)

/-- `Grid.is_barrier` (`grid.py` lines 18-20). -/
def Grid.is_barrier (g : Grid) (x y : ℤ) : Bool := g.barriers x y

/-- `Grid.is_occupied` (`grid.py` lines 22-24). -/
def Grid.is_occupied (g : Grid) (x y : ℤ) : Bool := g.data x y != 0

/-- `Grid.set` (`grid.py` lines 26-28): store `index + 1`. -/
def Grid.set (g : Grid) (x y : ℤ) (index : ℕ) : Grid :=
  { g with data := fun a b => if a = x ∧ b = y then index + 1 else g.data a b }

/-- `Grid.move` (`grid.py` lines 35-38): write the occupant into the new cell,
then clear the old cell (in that order, as the source does). -/
def Grid.move (g : Grid) (ox oy nx ny : ℤ) : Grid :=
  let d1 : ℤ → ℤ → ℕ := fun a b => if a = nx ∧ b = ny then g.data ox oy else g.data a b
  let d2 : ℤ → ℤ → ℕ := fun a b => if a = ox ∧ b = oy then 0 else d1 a b
  { g with data := d2 }

/-- `Grid.clear` (`grid.py` lines 40-42): wipe occupancy, keep barriers. -/
def Grid.clear (g : Grid) : Grid := { g with data := fun _ _ => 0 }

/-- `Individual` (`individual.py` lines 31-40). -/
structure Individual where
  genome : List Gene
  x : ℤ
  y : ℤ
  brain : Brain
  alive : Bool
  last_dx : ℤ
  last_dy : ℤ
  responsiveness : ℚ

/-- `Individual.__init__` (`individual.py` lines 32-40): note the brain is
built with the module constants, including `NUM_INTERNAL = 4`. -/
def Individual.init (genome : List Gene) (x y : ℤ) : Individual :=
  ⟨genome, x, y, Brain.init genome NUM_SENSORS NUM_ACTIONS NUM_INTERNAL, true, 0, 0, 1 / 2⟩

instance : Inhabited Individual := ⟨Individual.init [] 0 0⟩

/-- The POPULATION_DENSITY neighbor count (`individual.py` lines 90-96):
occupied in-bounds cells among the 4 orthogonal neighbors. -/
def countNeighbors4 (g : Grid) (x y : ℤ) : ℕ :=
  (([((-1 : ℤ), (0 : ℤ)), (1, 0), (0, -1), (0, 1)]).filter
    (fun d => g.in_bounds (x + d.1) (y + d.2) && g.is_occupied (x + d.1) (y + d.2))).length

/-- `Individual.compute_sensors` (`individual.py` lines 42-109).  The
`rng.random()` draw for RANDOM and the value of `math.sin(2π·step/spg)` for
OSCILLATOR are passed in (`randDraw`, `sinVal`).  All twelve keys are
present; divisions are exact rational divisions. -/
def Individual.compute_sensors (ind : Individual) (g : Grid) (step steps_per_gen : ℕ)
    (randDraw sinVal : ℚ) : ℕ → Option ℚ :=
  fun k =>
    if k = 0 then some ((ind.x : ℚ) / ((g.width : ℚ) - 1))
    else if k = 1 then some ((ind.y : ℚ) / ((g.height : ℚ) - 1))
    else if k = 2 then
      some (((min (min ind.x ind.y)
          (min ((g.width : ℤ) - 1 - ind.x) ((g.height : ℤ) - 1 - ind.y)) : ℤ) : ℚ)
        / ((min g.width g.height / 2 : ℕ) : ℚ))
    else if k = 3 then some ((step : ℚ) / (steps_per_gen : ℚ))
    else if k = 4 then some (((ind.last_dx : ℚ) + 1) / 2)
    else if k = 5 then some (((ind.last_dy : ℚ) + 1) / 2)
    else if k = 6 then some randDraw
    else if k = 7 then some (if ind.x ≤ (g.width : ℤ) - 1 - ind.x then 0 else 1)
    else if k = 8 then some (if ind.y ≤ (g.height : ℤ) - 1 - ind.y then 0 else 1)
    else if k = 9 then some ((countNeighbors4 g ind.x ind.y : ℚ) / 4)
    else if k = 10 then
      some (if !(g.in_bounds (ind.x + ind.last_dx) (ind.y + ind.last_dy))
          || !(g.is_empty (ind.x + ind.last_dx) (ind.y + ind.last_dy)) then 1 else 0)
    else if k = 11 then some ((sinVal + 1) / 2)
    else none

/-- The `rng` draws consumed by one `Individual.execute_actions` call
(`individual.py` lines 112-165): the four movement coins and the
`rng.choice([-1,0,1])` pair for MOVE_RANDOM. -/
structure ActRand where
  moveX : ℚ
  moveY : ℚ
  moveF : ℚ
  moveR : ℚ
  choiceDx : ℤ
  choiceDy : ℤ

/-- `Individual.execute_actions` (`individual.py` lines 112-165). -/
def Individual.execute_actions (ind : Individual) (outputs : ℕ → ℚ) (g : Grid)
    (r : ActRand) : Individual × Grid :=
  let valX := outputs 0
  let dx1 : ℤ := if r.moveX < |valX| * ind.responsiveness then (if valX > 0 then 1 else -1) else 0
  let valY := outputs 1
  let dy1 : ℤ := if r.moveY < |valY| * ind.responsiveness then (if valY > 0 then 1 else -1) else 0
  let valF := outputs 2
  let pF : ℤ × ℤ :=
    if r.moveF < |valF| * ind.responsiveness then (ind.last_dx, ind.last_dy) else (0, 0)
  let valR := outputs 3
  let pR : ℤ × ℤ :=
    if r.moveR < |valR| * ind.responsiveness then (r.choiceDx, r.choiceDy) else (0, 0)
  let valS := outputs 4
  let resp2 := (ind.responsiveness + (valS + 1) / 2) / 2
  let move_dx := max (-1) (min 1 (dx1 + pF.1 + pR.1))
  let move_dy := max (-1) (min 1 (dy1 + pF.2 + pR.2))
  let new_x := ind.x + move_dx
  let new_y := ind.y + move_dy
  let ind1 := { ind with responsiveness := resp2 }
  if (move_dx ≠ 0 ∨ move_dy ≠ 0) ∧ g.in_bounds new_x new_y ∧ g.is_empty new_x new_y then
    ({ ind1 with x := new_x, y := new_y, last_dx := move_dx, last_dy := move_dy },
     g.move ind.x ind.y new_x new_y)
  else (ind1, g)

/-- The randomness consumed by one `Individual.take_step` call. -/
structure StepRand where
  randSensor : ℚ
  sinVal : ℚ
  act : ActRand

/-- `Individual.take_step` (`individual.py` lines 167-178): no-op when dead,
otherwise sensors → brain feed-forward → action execution. -/
def Individual.take_step (squash : ℚ → ℚ) (ind : Individual) (g : Grid)
    (step steps_per_gen : ℕ) (r : StepRand) : Individual × Grid :=
  if ind.alive then
    let sensors := ind.compute_sensors g step steps_per_gen r.randSensor r.sinVal
    let bf := ind.brain.feed_forward squash sensors
    let ind1 := { ind with brain := bf.1 }
    Individual.execute_actions ind1 bf.2 g r.act
  else (ind, g)

/-- One per-generation stats record (`simulation.py` lines 330-336). -/
structure Stats where
  generation : ℕ
  survivors : ℕ
  survival_rate : ℚ
  kill_count : ℕ
  avg_genome_length : ℚ

/-- `Simulation` state (`simulation.py` lines 40-78). -/
structure SimState where
  world_width : ℕ
  world_height : ℕ
  population_size : ℕ
  genome_length : ℕ
  num_internal_neurons : ℕ
  steps_per_gen : ℕ
  mutation_rate : ℚ
  selection : ℕ
  grid : Grid
  individuals : List Individual
  generation : ℕ
  current_step : ℕ
  kill_count : ℕ
  history : List Stats

/-- `Simulation.__init__` (`simulation.py` lines 40-78). -/
def Simulation.init (w h pop glen nint spg : ℕ) (rate : ℚ) (sel : ℕ) : SimState where
  world_width := w
  world_height := h
  population_size := pop
  genome_length := glen
  num_internal_neurons := nint
  steps_per_gen := spg
  mutation_rate := rate
  selection := sel
  grid := Grid.init w h
  individuals := []
  generation := 0
  current_step := 0
  kill_count := 0
  history := []

/-- `Genome.random` (`genome.py` lines 8-13): n random genes, drawn from the
oracle. -/
def Genome.random (num_genes : ℕ) (draw : ℕ → Gene) : List Gene :=
  (List.range num_genes).map draw

/-- The randomness consumed by one `spawn_generation` call: the random genes
for generation-1 genomes and, per individual, the empty cell found by the
rejection-sampling loop `_random_empty_location` (`simulation.py` lines
128-147; the loop retries until it finds an empty non-barrier cell, so the
oracle supplies the cell it lands on). -/
structure SpawnRand where
  freshGene : ℕ → ℕ → Gene
  loc : ℕ → ℤ × ℤ

/-- The placement loop of `spawn_generation` (`simulation.py` lines 112-126):
for each genome in order, place a new `Individual` and register it. -/
def placeIndividuals (r : SpawnRand) : ℕ → List (List Gene) → List Individual × Grid →
    List Individual × Grid
  | _, [], acc => acc
  | i, genome :: rest, (inds, g) =>
    let xy := r.loc i
    let ind := Individual.init genome xy.1 xy.2
    placeIndividuals r (i + 1) rest (inds ++ [ind], g.set xy.1 xy.2 i)

/-- `Simulation.spawn_generation` (`simulation.py` lines 84-126). -/
def Simulation.spawn_generation (s : SimState) (genomes : Option (List (List Gene)))
    (r : SpawnRand) : SimState :=
  let gs := match genomes with
    | none => (List.range s.population_size).map fun i =>
        Genome.random s.genome_length (r.freshGene i)
    | some gs => gs
  let placed := placeIndividuals r 0 gs ([], s.grid.clear)
  { s with grid := placed.2, individuals := placed.1, current_step := 0, kill_count := 0 }

/-- One iteration of the `run_step` loop (`simulation.py` lines 164-170):
skip dead individuals, otherwise take a step and write back. -/
def stepOne (squash : ℚ → ℚ) (step steps_per_gen : ℕ) (r : ℕ → StepRand)
    (st : List Individual × Grid) (i : ℕ) : List Individual × Grid :=
  match st.1.get? i with
  | none => st
  | some ind =>
    if ind.alive then
      let res := Individual.take_step squash ind st.2 step steps_per_gen (r i)
      (st.1.set i res.1, res.2)
    else st

/-- `Simulation.run_step` (`simulation.py` lines 153-172): sequential pass
over the population in index order (later individuals see the grid as already
mutated by earlier ones), then advance the step counter. -/
def Simulation.run_step (squash : ℚ → ℚ) (s : SimState) (r : ℕ → StepRand) : SimState :=
  let res := (List.range s.individuals.length).foldl
    (stepOne squash s.current_step s.steps_per_gen r) (s.individuals, s.grid)
  { s with individuals := res.1, grid := res.2, current_step := s.current_step + 1 }

/-- `Simulation.run_all_steps` (`simulation.py` lines 174-181). -/
def Simulation.run_all_steps (squash : ℚ → ℚ) (s : SimState) (r : ℕ → ℕ → StepRand) :
    SimState :=
  (List.range s.steps_per_gen).foldl (fun st k => Simulation.run_step squash st (r k)) s

/-- `Simulation.apply_selection` (`simulation.py` lines 187-205): the
surviving subset; no individual is modified. -/
def Simulation.apply_selection (s : SimState) : List Individual :=
  s.individuals.filter fun ind =>
    ind.alive && survives s.selection s.world_width s.world_height ind.x ind.y

/-- The randomness consumed by one `reproduce` call, per child index:
generation genes for extinction, the mutation draws, the two
`random.sample` indices, the two crossover cut points and the crossover
fallback gene. -/
structure ReproRand where
  freshGene : ℕ → ℕ → Gene
  mutOf : ℕ → MutRand
  pickA : ℕ → ℕ
  pickB : ℕ → ℕ
  cutA : ℕ → ℕ
  cutB : ℕ → ℕ
  fallback : ℕ → Gene

/-- `random.sample(survivors, 2)` (`simulation.py` line 288): two distinct
indices into a list of length `n ≥ 2`, modelled by drawing the first index
uniformly in `[0,n)` and the second in `[0,n-1)` skipping the first. -/
def sampleTwo (n a b : ℕ) : ℕ × ℕ :=
  let i := a % n
  let j := b % (n - 1)
  (i, if j ≥ i then j + 1 else j)

/-- `Simulation.reproduce` (`simulation.py` lines 252-299): extinction →
fresh random genomes; one survivor → mutated clones; otherwise crossover of
two distinct sampled survivors followed by one `mutate` call (crossover
itself, `genome.py` lines 30-45, performs no mutation). -/
def Simulation.reproduce (s : SimState) (r : ReproRand) (survivors : List Individual) :
    List (List Gene) :=
  if survivors.length = 0 then
    (List.range s.population_size).map fun i =>
      Genome.random s.genome_length (r.freshGene i)
  else if survivors.length = 1 then
    (List.range s.population_size).map fun i =>
      Genome.mutate (r.mutOf i) ((survivors.headI).genome.map Gene.copy)
  else
    (List.range s.population_size).map fun i =>
      let pr := sampleTwo survivors.length (r.pickA i) (r.pickB i)
      let pa := (survivors.getD pr.1 default).genome
      let pb := (survivors.getD pr.2 default).genome
      Genome.mutate (r.mutOf i)
        (Genome.crossover (r.cutA i % (pa.length + 1)) (r.cutB i % (pb.length + 1))
          (r.fallback i) pa pb)

/-- The randomness consumed by one full generation cycle. -/
structure GenRand where
  steps : ℕ → ℕ → StepRand
  repro : ReproRand
  spawn : SpawnRand

/-- `Simulation.run_one_generation` (`simulation.py` lines 305-359): run all
steps, select, append the stats record, reproduce, advance the generation
counter, spawn the children. -/
def Simulation.run_one_generation (squash : ℚ → ℚ) (s : SimState) (r : GenRand) :
    SimState :=
  let s1 := Simulation.run_all_steps squash s r.steps
  let survivors := Simulation.apply_selection s1
  let stats : Stats := {
    generation := s1.generation
    survivors := survivors.length
    survival_rate := (survivors.length : ℚ) / (s1.population_size : ℚ)
    kill_count := s1.kill_count
    avg_genome_length :=
      if survivors.length ≠ 0 then
        ((survivors.map fun ind => ((ind.genome.length : ℕ) : ℚ)).sum) / (survivors.length : ℚ)
      else 0 }
  let s2 := { s1 with history := s1.history ++ [stats] }
  let children := Simulation.reproduce s2 r.repro survivors
  let s3 := { s2 with generation := s2.generation + 1 }
  Simulation.spawn_generation s3 (some children) r.spawn

/-- `Simulation.run` (`simulation.py` lines 361-371). -/
def Simulation.runGenerations (squash : ℚ → ℚ) (s : SimState) (rs : ℕ → GenRand)
    (n : ℕ) : SimState :=
  (List.range n).foldl (fun st k => Simulation.run_one_generation squash st (rs k)) s

/-- The reachable engine states: any constructor call followed by any
sequence of the public operations. -/
inductive Reachable : SimState → Prop where
  | init : ∀ (w h pop glen nint spg : ℕ) (rate : ℚ) (sel : ℕ),
      Reachable (Simulation.init w h pop glen nint spg rate sel)
  | spawn : ∀ {s : SimState} (genomes : Option (List (List Gene))) (r : SpawnRand),
      Reachable s → Reachable (Simulation.spawn_generation s genomes r)
  | step : ∀ {s : SimState} (squash : ℚ → ℚ) (r : ℕ → StepRand),
      Reachable s → Reachable (Simulation.run_step squash s r)
  | allSteps : ∀ {s : SimState} (squash : ℚ → ℚ) (r : ℕ → ℕ → StepRand),
      Reachable s → Reachable (Simulation.run_all_steps squash s r)
  | gen : ∀ {s : SimState} (squash : ℚ → ℚ) (r : GenRand),
      Reachable s → Reachable (Simulation.run_one_generation squash s r)
  | runGens : ∀ {s : SimState} (squash : ℚ → ℚ) (rs : ℕ → GenRand) (n : ℕ),
      Reachable s → Reachable (Simulation.runGenerations squash s rs n)

/-- The C10 invariant: no kills have been counted, every individual in the
population is alive, and every recorded stats entry shows zero kills. -/
def AliveInv (s : SimState) : Prop :=
  s.kill_count = 0 ∧ (∀ ind ∈ s.individuals, ind.alive = true) ∧
    (∀ st ∈ s.history, st.kill_count = 0)

/-- Spawn randomness used by the concrete C1 evaluation. -/
def c1Spawn : SpawnRand := ⟨fun _ _ => ⟨0, 0, 0, 0, 0⟩, fun _ => (0, 0)⟩

/-- Engine constructed with `num_internal_neurons = 3` and spawned with the
single one-gene genome `[Gene(0, 5, 1, 3, 1.0)]` (neuron-typed source id 5). -/
def c1State : SimState :=
  Simulation.spawn_generation (Simulation.init 8 8 1 1 3 5 (1 / 100) 0)
    (some [[⟨0, 5, 1, 3, 1⟩]]) c1Spawn

/-- Concrete engine state and reproduction randomness for the C9 witness. -/
def c9Sim : SimState := Simulation.init 8 8 3 2 3 5 (1 / 100) 0

/-- All-zero reproduction randomness for the C9 witness. -/
def c9Repro : ReproRand :=
  ⟨fun _ _ => ⟨0, 0, 0, 0, 0⟩,
   fun _ => ⟨fun _ => false, fun _ => 0, false, 0, false, ⟨0, 0, 0, 0, 0⟩⟩,
   fun _ => 0, fun _ => 0, fun _ => 0, fun _ => 0, fun _ => ⟨0, 0, 0, 0, 0⟩⟩

-- ═══════════ helper lemmas ═══════════

theorem ratTrunc_intCast (z : ℤ) : ratTrunc (z : ℚ) = z := by
  unfold ratTrunc
  split <;> simp

theorem orAdd {i b : ℕ} (a : ℕ) (hb : b < 2 ^ i) : a * 2 ^ i ||| b = a * 2 ^ i + b := by
  rw [Nat.mul_comm, ← Nat.mul_add_lt_is_or hb]

theorem and127_eq_mod (x : ℕ) : x &&& 127 = x % 128 := by
  have h : (127 : ℕ) = 2 ^ 7 - 1 := by norm_num
  rw [h, Nat.and_pow_two_sub_one_eq_mod]

theorem and65535_eq_mod (x : ℕ) : x &&& 65535 = x % 65536 := by
  have h : (65535 : ℕ) = 2 ^ 16 - 1 := by norm_num
  rw [h, Nat.and_pow_two_sub_one_eq_mod]

/-- The packed word as plain positional arithmetic: the shifted-and-ORed fields
of `Gene.to_int` occupy disjoint bit ranges, so the ORs are additions. -/
theorem pack_arith {st sk w : ℕ} (sid skid : ℕ) (hsk : sk ≤ 1)
    (hw : w < 2 ^ 16) :
    (st <<< 31) ||| ((sid &&& 127) <<< 24) ||| (sk <<< 23) ||| ((skid &&& 127) <<< 16) ||| w
      = st * 2 ^ 31 + sid % 128 * 2 ^ 24 + sk * 2 ^ 23 + skid % 128 * 2 ^ 16 + w := by
  rw [and127_eq_mod, and127_eq_mod]
  simp only [Nat.shiftLeft_eq, Nat.or_assoc]
  have h2 : skid % 128 * 2 ^ 16 + w < 2 ^ 23 := by omega
  have h3 : sk * 2 ^ 23 + (skid % 128 * 2 ^ 16 + w) < 2 ^ 24 := by omega
  have h4 : sid % 128 * 2 ^ 24 + (sk * 2 ^ 23 + (skid % 128 * 2 ^ 16 + w)) < 2 ^ 31 := by
    omega
  rw [orAdd _ hw, orAdd _ h2, orAdd _ h3, orAdd _ h4]
  ring

/-- The weight code of `Gene.to_int` is a 16-bit value. -/
theorem weightUint_lt (w : ℚ) : ((weightCode w) % 65536).toNat < 2 ^ 16 := by
  have h1 : (0 : ℤ) ≤ weightCode w % 65536 := Int.emod_nonneg _ (by norm_num)
  have h2 : weightCode w % 65536 < 65536 := Int.emod_lt_of_pos _ (by norm_num)
  omega

/-- Each bit field of the positional sum extracts back out. -/
theorem sum_extract {st b sk d w : ℕ} (hst : st ≤ 1) (hb : b < 128) (hsk : sk ≤ 1)
    (hd : d < 128) (hw : w < 65536) :
    ((st * 2 ^ 31 + b * 2 ^ 24 + sk * 2 ^ 23 + d * 2 ^ 16 + w) >>> 31) &&& 1 = st ∧
    ((st * 2 ^ 31 + b * 2 ^ 24 + sk * 2 ^ 23 + d * 2 ^ 16 + w) >>> 24) &&& 127 = b ∧
    ((st * 2 ^ 31 + b * 2 ^ 24 + sk * 2 ^ 23 + d * 2 ^ 16 + w) >>> 23) &&& 1 = sk ∧
    ((st * 2 ^ 31 + b * 2 ^ 24 + sk * 2 ^ 23 + d * 2 ^ 16 + w) >>> 16) &&& 127 = d ∧
    (st * 2 ^ 31 + b * 2 ^ 24 + sk * 2 ^ 23 + d * 2 ^ 16 + w) &&& 65535 = w ∧
    st * 2 ^ 31 + b * 2 ^ 24 + sk * 2 ^ 23 + d * 2 ^ 16 + w < 2 ^ 32 := by
  simp only [Nat.shiftRight_eq_div_pow, Nat.and_one_is_mod, and127_eq_mod, and65535_eq_mod]
  refine ⟨?_, ?_, ?_, ?_, ?_, ?_⟩ <;> omega

/-- `Gene.to_int` as positional arithmetic. -/
theorem toInt_eq_sum (g : Gene) (hsk : g.sink_type ≤ 1) :
    g.to_int = g.source_type * 2 ^ 31 + g.source_id % 128 * 2 ^ 24 +
      g.sink_type * 2 ^ 23 + g.sink_id % 128 * 2 ^ 16 +
      ((weightCode g.weight) % 65536).toNat := by
  unfold Gene.to_int
  exact pack_arith _ _ hsk (weightUint_lt _)

/-- Truncation toward zero is within distance 1 of its argument. -/
theorem ratTrunc_near (q : ℚ) : q - 1 < (ratTrunc q : ℚ) ∧ (ratTrunc q : ℚ) < q + 1 := by
  unfold ratTrunc
  split
  · exact ⟨Int.sub_one_lt_floor q, lt_of_le_of_lt (Int.floor_le q) (by linarith)⟩
  · exact ⟨lt_of_lt_of_le (by linarith) (Int.le_ceil q), Int.ceil_lt_add_one q⟩

theorem ratTrunc_le {n : ℤ} (q : ℚ) (h : q ≤ (n : ℚ)) : ratTrunc q ≤ n := by
  unfold ratTrunc
  split
  · exact le_trans (Int.floor_le_floor h) (by simp)
  · exact Int.ceil_le.mpr h

theorem le_ratTrunc {n : ℤ} (q : ℚ) (h : (n : ℚ) ≤ q) : n ≤ ratTrunc q := by
  unfold ratTrunc
  split
  · exact Int.le_floor.mpr h
  · exact le_trans (by simp) (Int.ceil_le_ceil h)

/-- For weights in the documented range the clamp in `Gene.to_int` is inert. -/
theorem weightCode_of_range {w : ℚ} (h1 : -4 ≤ w) (h2 : w ≤ 4) :
    weightCode w = ratTrunc (w / 4 * 32767) ∧
    -32767 ≤ weightCode w ∧ weightCode w ≤ 32767 := by
  have hu : w / 4 * 32767 ≤ ((32767 : ℤ) : ℚ) := by push_cast; linarith
  have hl : ((-32767 : ℤ) : ℚ) ≤ w / 4 * 32767 := by push_cast; linarith
  have hle := ratTrunc_le _ hu
  have hge := le_ratTrunc _ hl
  unfold weightCode
  omega

/-- Decoding the 16-bit field undoes the two's-complement encoding. -/
theorem decodeWInt_eq (c : ℤ) (h1 : -32768 ≤ c) (h2 : c ≤ 32767) (S : ℕ)
    (hS : S &&& 65535 = (c % 65536).toNat) : decodeWInt S = c := by
  unfold decodeWInt
  rw [hS]
  split <;> omega

-- ═══════════ claim theorems: gene packing ═══════════

/-- C2 (counterexample): the spec says the 16-bit weight code is
`round(weight/4.0 × 32767)`, but `gene.py` uses Python `int()`, which
truncates toward zero.  At weight 1.0 the exact code value is 8191.75: the
code packs 8191 while the spec's rounding gives 8192. -/
theorem c2_pack_rounding_counterexample :
    Gene.to_int ⟨0, 0, 0, 0, 1⟩ = 8191 ∧ specWeightCode 1 = 8192 := by
  constructor
  · have h : weightCode 1 = 8191 := by norm_num [weightCode, ratTrunc]
    unfold Gene.to_int
    rw [h]
    decide
  · norm_num [specWeightCode, round_eq]

/-- C2 (amended): for kinds in {0,1}, IDs in [0,127] and weight in
[-4.0,4.0], `Gene.to_int` produces exactly the 32-bit layout bit 31 =
source kind, bits 30-24 = source id, bit 23 = sink kind, bits 22-16 =
sink id, and bits 15-0 = the two's-complement 16-bit code obtained by
TRUNCATING `weight/4.0 * 32767` toward zero (not rounding), clamped to
[-32768,32767]. -/
theorem c2_pack_layout (g : Gene) (hst : g.source_type ≤ 1)
    (hsid : g.source_id ≤ 127) (hsk : g.sink_type ≤ 1) (hskid : g.sink_id ≤ 127)
    (hw1 : -4 ≤ g.weight) (hw2 : g.weight ≤ 4) :
    (g.to_int >>> 31) &&& 1 = g.source_type ∧
    (g.to_int >>> 24) &&& 127 = g.source_id ∧
    (g.to_int >>> 23) &&& 1 = g.sink_type ∧
    (g.to_int >>> 16) &&& 127 = g.sink_id ∧
    ((g.to_int &&& 65535 : ℕ) : ℤ) = ratTrunc (g.weight / 4 * 32767) % 65536 ∧
    g.to_int < 2 ^ 32 := by
  obtain ⟨hwc, hlo, hhi⟩ := weightCode_of_range hw1 hw2
  have hsum := toInt_eq_sum g hsk
  have hmod1 : g.source_id % 128 = g.source_id := Nat.mod_eq_of_lt (by omega)
  have hmod2 : g.sink_id % 128 = g.sink_id := Nat.mod_eq_of_lt (by omega)
  rw [hmod1, hmod2] at hsum
  have hext := sum_extract (b := g.source_id) (d := g.sink_id)
    (w := ((weightCode g.weight) % 65536).toNat)
    hst (by omega) hsk (by omega) (weightUint_lt g.weight)
  rw [← hsum] at hext
  obtain ⟨h1, h2, h3, h4, h5, h6⟩ := hext
  refine ⟨h1, h2, h3, h4, ?_, h6⟩
  rw [h5, ← hwc]
  have : (0 : ℤ) ≤ weightCode g.weight % 65536 := Int.emod_nonneg _ (by norm_num)
  omega

/-- C2 witness: the layout theorem applied to the concrete gene
(kind 1, id 5, kind 1, id 3, weight 2). -/
theorem c2_pack_layout_witness :
    (Gene.to_int ⟨1, 5, 1, 3, 2⟩ >>> 31) &&& 1 = 1 ∧
    (Gene.to_int ⟨1, 5, 1, 3, 2⟩ >>> 24) &&& 127 = 5 ∧
    (Gene.to_int ⟨1, 5, 1, 3, 2⟩ >>> 23) &&& 1 = 1 ∧
    (Gene.to_int ⟨1, 5, 1, 3, 2⟩ >>> 16) &&& 127 = 3 ∧
    ((Gene.to_int ⟨1, 5, 1, 3, 2⟩ &&& 65535 : ℕ) : ℤ) = ratTrunc ((2 : ℚ) / 4 * 32767) % 65536 ∧
    Gene.to_int ⟨1, 5, 1, 3, 2⟩ < 2 ^ 32 :=
  c2_pack_layout ⟨1, 5, 1, 3, 2⟩ (by norm_num) (by norm_num) (by norm_num)
    (by norm_num) (by norm_num) (by norm_num)

/-- C3: for kinds in {0,1}, IDs in [0,127] and weight in [-4.0,4.0],
`Gene.from_int (Gene.to_int g)` reproduces the kinds and ids exactly and the
weight within `4.0/32767` absolute error. -/
theorem c3_unpack_pack_roundtrip (g : Gene) (hst : g.source_type ≤ 1)
    (hsid : g.source_id ≤ 127) (hsk : g.sink_type ≤ 1) (hskid : g.sink_id ≤ 127)
    (hw1 : -4 ≤ g.weight) (hw2 : g.weight ≤ 4) :
    (Gene.from_int g.to_int).source_type = g.source_type ∧
    (Gene.from_int g.to_int).source_id = g.source_id ∧
    (Gene.from_int g.to_int).sink_type = g.sink_type ∧
    (Gene.from_int g.to_int).sink_id = g.sink_id ∧
    |(Gene.from_int g.to_int).weight - g.weight| ≤ 4 / 32767 := by
  obtain ⟨hwc, hlo, hhi⟩ := weightCode_of_range hw1 hw2
  have hsum := toInt_eq_sum g hsk
  have hmod1 : g.source_id % 128 = g.source_id := Nat.mod_eq_of_lt (by omega)
  have hmod2 : g.sink_id % 128 = g.sink_id := Nat.mod_eq_of_lt (by omega)
  rw [hmod1, hmod2] at hsum
  have hext := sum_extract (b := g.source_id) (d := g.sink_id)
    (w := ((weightCode g.weight) % 65536).toNat)
    hst (by omega) hsk (by omega) (weightUint_lt g.weight)
  rw [← hsum] at hext
  obtain ⟨h1, h2, h3, h4, h5, h6⟩ := hext
  have hdw : decodeWInt g.to_int = weightCode g.weight :=
    decodeWInt_eq _ (by omega) hhi _ h5
  refine ⟨h1, h2, h3, h4, ?_⟩
  show |((decodeWInt g.to_int : ℤ) : ℚ) / 32767 * 4 - g.weight| ≤ 4 / 32767
  rw [hdw, hwc]
  have hnear := ratTrunc_near (g.weight / 4 * 32767)
  rw [abs_le]
  constructor
  · linarith [hnear.2]
  · linarith [hnear.1]

/-- C3 witness: round-trip at the concrete gene (0, 100, 1, 50, -3). -/
theorem c3_unpack_pack_roundtrip_witness :
    (Gene.from_int (Gene.to_int ⟨0, 100, 1, 50, -3⟩)).source_type = 0 ∧
    (Gene.from_int (Gene.to_int ⟨0, 100, 1, 50, -3⟩)).source_id = 100 ∧
    (Gene.from_int (Gene.to_int ⟨0, 100, 1, 50, -3⟩)).sink_type = 1 ∧
    (Gene.from_int (Gene.to_int ⟨0, 100, 1, 50, -3⟩)).sink_id = 50 ∧
    |(Gene.from_int (Gene.to_int ⟨0, 100, 1, 50, -3⟩)).weight - (-3)| ≤ 4 / 32767 :=
  c3_unpack_pack_roundtrip ⟨0, 100, 1, 50, -3⟩ (by norm_num) (by norm_num)
    (by norm_num) (by norm_num) (by norm_num) (by norm_num)

/-- C4: for every 32-bit word `p`, `(Gene.from_int p).to_int = p`:
re-encoding an already-decoded gene yields the identical word. -/
theorem c4_pack_unpack_identity (p : ℕ) (hp : p < 2 ^ 32) :
    (Gene.from_int p).to_int = p := by
  have hb : (p >>> 24) &&& 127 < 128 := by rw [and127_eq_mod]; omega
  have hd : (p >>> 16) &&& 127 < 128 := by rw [and127_eq_mod]; omega
  have hst : (p >>> 31) &&& 1 ≤ 1 := by rw [Nat.and_one_is_mod]; omega
  have hsk : (p >>> 23) &&& 1 ≤ 1 := by rw [Nat.and_one_is_mod]; omega
  have hwu : p &&& 65535 < 65536 := by rw [and65535_eq_mod]; omega
  have hdwb : -32768 ≤ decodeWInt p ∧ decodeWInt p ≤ 32767 := by
    unfold decodeWInt; split <;> omega
  have harith : ((decodeWInt p : ℤ) : ℚ) / 32767 * 4 / 4 * 32767
      = ((decodeWInt p : ℤ) : ℚ) := by ring
  have hwc : weightCode (((decodeWInt p : ℤ) : ℚ) / 32767 * 4) = decodeWInt p := by
    unfold weightCode
    rw [harith, ratTrunc_intCast]
    omega
  have hmod : ((decodeWInt p) % 65536).toNat = p &&& 65535 := by
    unfold decodeWInt; split <;> omega
  have hsk' : (Gene.from_int p).sink_type ≤ 1 := hsk
  rw [toInt_eq_sum _ hsk']
  simp only [Gene.from_int]
  rw [hwc, hmod, Nat.mod_eq_of_lt hb, Nat.mod_eq_of_lt hd]
  simp only [Nat.shiftRight_eq_div_pow, Nat.and_one_is_mod, and127_eq_mod, and65535_eq_mod]
  omega

/-- C4 witness: the identity at the concrete word 0xDEADBEEF. -/
theorem c4_pack_unpack_identity_witness :
    (Gene.from_int 3735928559).to_int = 3735928559 :=
  c4_pack_unpack_identity 3735928559 (by norm_num)

-- ═══════════ brain evaluation lemmas ═══════════

theorem accumulateConn_action (prev : ℕ → ℚ) (sv : ℕ → Option ℚ)
    (acc : (ℕ → ℚ) × (ℕ → ℚ)) (c : Conn) (hs : c.sink_type = 1) :
    accumulateConn prev sv acc c = (acc.1, Function.update acc.2 c.sink_id
      (acc.2 c.sink_id + sourceValue prev sv c * c.weight)) := by
  unfold accumulateConn
  rw [if_pos hs]

theorem accumulateConn_neuron (prev : ℕ → ℚ) (sv : ℕ → Option ℚ)
    (acc : (ℕ → ℚ) × (ℕ → ℚ)) (c : Conn) (hs : ¬ c.sink_type = 1) :
    accumulateConn prev sv acc c = (Function.update acc.1 c.sink_id
      (acc.1 c.sink_id + sourceValue prev sv c * c.weight), acc.2) := by
  unfold accumulateConn
  rw [if_neg hs]

/-- The accumulation fold of `feed_forward` computes, at every index, the
initial accumulator plus the reference per-sink sum. -/
theorem accumulate_spec (prev : ℕ → ℚ) (sv : ℕ → Option ℚ) (conns : List Conn)
    (n a : ℕ → ℚ) (i : ℕ) :
    ((conns.foldl (accumulateConn prev sv) (n, a)).1 i
        = n i + sinkSum prev sv conns false i) ∧
    ((conns.foldl (accumulateConn prev sv) (n, a)).2 i
        = a i + sinkSum prev sv conns true i) := by
  induction conns generalizing n a with
  | nil => simp [sinkSum]
  | cons c rest ih =>
    rw [List.foldl_cons]
    rcases eq_or_ne c.sink_type 1 with hs | hs
    · rw [accumulateConn_action _ _ _ _ hs]
      constructor
      · rw [(ih _ _).1]
        simp [sinkSum, List.filter_cons, hs]
      · rw [(ih _ _).2]
        rcases eq_or_ne c.sink_id i with hid | hid
        · subst hid
          simp [sinkSum, List.filter_cons, hs, Function.update_same]
          ring
        · simp [sinkSum, List.filter_cons, hs, hid, Function.update_noteq (Ne.symm hid)]
    · rw [accumulateConn_neuron _ _ _ _ hs]
      constructor
      · rw [(ih _ _).1]
        rcases eq_or_ne c.sink_id i with hid | hid
        · subst hid
          simp [sinkSum, List.filter_cons, hs, Function.update_same]
          ring
        · simp [sinkSum, List.filter_cons, hs, hid, Function.update_noteq (Ne.symm hid)]
      · rw [(ih _ _).2]
        simp [sinkSum, List.filter_cons, hs]

/-- C5: `Brain.feed_forward` equals the reference definition: each action
output `j < num_actions` is the squash (`tanh`) of the sum, over connections
with action sink `j`, of `source_value * weight`, where Neuron sources read
the pre-call stored neuron outputs (one tick stale, never the in-progress
accumulator); the stored neuron vector is replaced by the squash of the
neuron accumulators only after all connections are processed; sensor sources
with missing keys read 0.0.  Determinism holds by construction: the pass is a
pure function of the brain, the sensor map and the squash function. -/
theorem c5_feed_forward_reference (squash : ℚ → ℚ) (b : Brain) (sv : ℕ → Option ℚ) :
    (∀ j, j < b.num_actions →
      (b.feed_forward squash sv).2 j
        = squash (sinkSum b.neuron_outputs sv b.connections true j)) ∧
    (∀ i, i < b.num_internal →
      (b.feed_forward squash sv).1.neuron_outputs i
        = squash (sinkSum b.neuron_outputs sv b.connections false i)) ∧
    (∀ c : Conn, c.source_type = 1 → sv c.source_id = none →
      sourceValue b.neuron_outputs sv c = 0) := by
  refine ⟨fun j hj => ?_, fun i hi => ?_, fun c h1 h2 => ?_⟩
  · show (if j < b.num_actions then squash
        ((b.connections.foldl (accumulateConn b.neuron_outputs sv)
          (fun _ => 0, fun _ => 0)).2 j) else 0)
      = squash (sinkSum b.neuron_outputs sv b.connections true j)
    rw [if_pos hj, (accumulate_spec _ _ _ _ _ _).2, zero_add]
  · show (if i < b.num_internal then squash
        ((b.connections.foldl (accumulateConn b.neuron_outputs sv)
          (fun _ => 0, fun _ => 0)).1 i) else 0)
      = squash (sinkSum b.neuron_outputs sv b.connections false i)
    rw [if_pos hi, (accumulate_spec _ _ _ _ _ _).1, zero_add]
  · unfold sourceValue
    rw [if_pos h1, h2]
    rfl

/-- C5 witness: the reference theorem applied to the concrete `witnessBrain`
and `witnessSensors` at action index 1 and neuron index 0. -/
theorem c5_feed_forward_reference_witness :
    (witnessBrain.feed_forward id witnessSensors).2 1
      = id (sinkSum witnessBrain.neuron_outputs witnessSensors
          witnessBrain.connections true 1) ∧
    (witnessBrain.feed_forward id witnessSensors).1.neuron_outputs 0
      = id (sinkSum witnessBrain.neuron_outputs witnessSensors
          witnessBrain.connections false 0) :=
  ⟨(c5_feed_forward_reference id witnessBrain witnessSensors).1 1 (by decide),
   (c5_feed_forward_reference id witnessBrain witnessSensors).2.1 0 (by decide)⟩

-- ═══════════ genome operator lemmas ═══════════

theorem Gene.copy_eq (g : Gene) : Gene.copy g = g := rfl

theorem map_copy_id (l : List Gene) : l.map Gene.copy = l := by
  induction l with
  | nil => rfl
  | cons g t ih => rw [List.map_cons, Gene.copy_eq, ih]

/-- Normal form of `Genome.crossover`: since `Gene.copy` is the identity on
values, the child is the plain slice concatenation, truncated to 50, with the
fallback gene substituted when empty. -/
theorem crossover_eq (ca cb : ℕ) (fallback : Gene) (a b : List Gene) :
    Genome.crossover ca cb fallback a b
      = if a.take ca ++ b.drop cb = [] then [fallback]
        else (a.take ca ++ b.drop cb).take 50 := by
  simp only [Genome.crossover]
  rw [map_copy_id, map_copy_id]
  rcases eq_or_ne (a.take ca ++ b.drop cb) [] with he | he
  · rw [he]
    simp
  · have hpos : 0 < (a.take ca ++ b.drop cb).length := List.length_pos.mpr he
    rcases le_or_lt (a.take ca ++ b.drop cb).length 50 with hle | hgt
    · rw [if_neg (show ¬((a.take ca ++ b.drop cb).length > 50) by omega),
        if_neg (show ¬((a.take ca ++ b.drop cb).length = 0) by omega),
        if_neg he, List.take_of_length_le hle]
    · rw [if_pos (show (a.take ca ++ b.drop cb).length > 50 from hgt),
        if_neg (show ¬((List.take 50 (a.take ca ++ b.drop cb)).length = 0) by
          rw [List.length_take]; omega),
        if_neg he]

/-- C6: `Genome.crossover` returns the child `a[:ca] ++ b[cb:]` (value-equal
deep copies), truncated to 50 genes, replaced by the single fallback gene if
empty; the child's length is always in [1,50].  Genes are value-copied
(`Gene.copy g = g`), so in this value semantics no mutation of the child can
reach a parent. -/
theorem c6_crossover_genes (a b : List Gene) (fallback : Gene) (ca cb : ℕ)
    (ha1 : 1 ≤ a.length) (ha2 : a.length ≤ 50)
    (hb1 : 1 ≤ b.length) (hb2 : b.length ≤ 50)
    (hca : ca ≤ a.length) (hcb : cb ≤ b.length) :
    Genome.crossover ca cb fallback a b
      = (if a.take ca ++ b.drop cb = [] then [fallback]
         else (a.take ca ++ b.drop cb).take 50) ∧
    1 ≤ (Genome.crossover ca cb fallback a b).length ∧
    (Genome.crossover ca cb fallback a b).length ≤ 50 ∧
    ∀ g ∈ a.take ca ++ b.drop cb, Gene.copy g = g := by
  have hmain := crossover_eq ca cb fallback a b
  refine ⟨hmain, ?_, ?_, fun g _ => Gene.copy_eq g⟩
  · rw [hmain]
    split
    · simp
    · next he =>
      have hpos : 0 < (a.take ca ++ b.drop cb).length := List.length_pos.mpr he
      rw [List.length_take]
      omega
  · rw [hmain]
    split
    · simp
    · exact List.length_take_le 50 _

/-- C6 witness: crossover at singleton parents with cuts 1 and 0 concatenates
both parents' genes. -/
theorem c6_crossover_genes_witness :
    Genome.crossover 1 0 ⟨0, 0, 0, 0, 0⟩ [⟨1, 1, 1, 1, 1⟩] [⟨0, 2, 0, 2, 2⟩]
      = (if ([⟨1, 1, 1, 1, 1⟩] : List Gene).take 1 ++ ([⟨0, 2, 0, 2, 2⟩] : List Gene).drop 0 = []
         then [⟨0, 0, 0, 0, 0⟩]
         else (([⟨1, 1, 1, 1, 1⟩] : List Gene).take 1 ++ ([⟨0, 2, 0, 2, 2⟩] : List Gene).drop 0).take 50) ∧
    1 ≤ (Genome.crossover 1 0 ⟨0, 0, 0, 0, 0⟩ [⟨1, 1, 1, 1, 1⟩] [⟨0, 2, 0, 2, 2⟩]).length ∧
    (Genome.crossover 1 0 ⟨0, 0, 0, 0, 0⟩ [⟨1, 1, 1, 1, 1⟩] [⟨0, 2, 0, 2, 2⟩]).length ≤ 50 ∧
    ∀ g ∈ ([⟨1, 1, 1, 1, 1⟩] : List Gene).take 1 ++ ([⟨0, 2, 0, 2, 2⟩] : List Gene).drop 0,
      Gene.copy g = g :=
  c6_crossover_genes [⟨1, 1, 1, 1, 1⟩] [⟨0, 2, 0, 2, 2⟩] ⟨0, 0, 0, 0, 0⟩ 1 0
    (by decide) (by decide) (by decide) (by decide) (by decide) (by decide)

/-- C7: `Genome.mutate` preserves genome length in [1,50] for every genome in
that range and every draw of the mutation randomness: deletion fires only at
length > 1, insertion only at length < 50. -/
theorem c7_mutate_length_invariant (r : MutRand) (genes : List Gene)
    (h1 : 1 ≤ genes.length) (h2 : genes.length ≤ 50) :
    1 ≤ (Genome.mutate r genes).length ∧ (Genome.mutate r genes).length ≤ 50 := by
  simp only [Genome.mutate]
  set g1 := genes.mapIdx fun i g =>
    if r.pointFlip i then Gene.mutateBit (r.pointBit i) g else g with hg1def
  have hlen1 : g1.length = genes.length := List.length_mapIdx
  by_cases hdel : r.delFlip ∧ g1.length > 1
  · rw [if_pos hdel]
    have hgt1 : 1 < g1.length := hdel.2
    have hdlen : (g1.eraseIdx (r.delIdx % g1.length)).length = g1.length - 1 :=
      List.length_eraseIdx_of_lt (Nat.mod_lt _ (by omega))
    by_cases hins : r.insFlip ∧ (g1.eraseIdx (r.delIdx % g1.length)).length < 50
    · have hlt : (g1.eraseIdx (r.delIdx % g1.length)).length < 50 := hins.2
      rw [if_pos hins, List.length_append, hdlen, List.length_singleton]
      rw [hdlen] at hlt
      constructor <;> omega
    · rw [if_neg hins, hdlen]
      constructor <;> omega
  · rw [if_neg hdel]
    by_cases hins : r.insFlip ∧ g1.length < 50
    · have hlt : g1.length < 50 := hins.2
      rw [if_pos hins, List.length_append, List.length_singleton]
      constructor <;> omega
    · rw [if_neg hins]
      constructor <;> omega

/-- C7 witness: the invariant at a singleton genome and the all-quiet draw. -/
theorem c7_mutate_length_invariant_witness :
    1 ≤ (Genome.mutate ⟨fun _ => false, fun _ => 0, false, 0, false, ⟨0, 0, 0, 0, 0⟩⟩
        [⟨0, 0, 0, 0, 0⟩]).length ∧
    (Genome.mutate ⟨fun _ => false, fun _ => 0, false, 0, false, ⟨0, 0, 0, 0, 0⟩⟩
        [⟨0, 0, 0, 0, 0⟩]).length ≤ 50 :=
  c7_mutate_length_invariant _ _ (by decide) (by decide)

/-- C8: the survival predicates match the spec formulas for every position
and world size (with the code's integer `//` for the half/quarter thresholds
and exact division for the circle), an unrecognized selection value means
everyone survives, and the spec's concrete 8x8 sample points evaluate as
stated. -/
theorem c8_selection_predicates :
    (∀ (w h : ℕ) (x y : ℤ), survives 0 w h x y = true ↔ x ≥ ((w / 2 : ℕ) : ℤ)) ∧
    (∀ (w h : ℕ) (x y : ℤ), survives 1 w h x y = true ↔ x < ((w / 2 : ℕ) : ℤ)) ∧
    (∀ (w h : ℕ) (x y : ℤ), survives 2 w h x y = true ↔
      ((x : ℚ) - (w : ℚ) / 2) ^ 2 + ((y : ℚ) - (h : ℚ) / 2) ^ 2
        ≤ (((min w h : ℕ) : ℚ) / 4) ^ 2) ∧
    (∀ (w h : ℕ) (x y : ℤ), survives 3 w h x y = true ↔
      (x < ((w / 4 : ℕ) : ℤ) ∨ x ≥ (w : ℤ) - ((w / 4 : ℕ) : ℤ)) ∧
      (y < ((h / 4 : ℕ) : ℤ) ∨ y ≥ (h : ℤ) - ((h / 4 : ℕ) : ℤ))) ∧
    (∀ (w h : ℕ) (x y : ℤ), survives 4 w h x y = true ↔ x ≥ ((3 * w / 4 : ℕ) : ℤ)) ∧
    (∀ (s w h : ℕ) (x y : ℤ), 4 < s → survives s w h x y = true) ∧
    (survives 0 8 8 6 3 = true ∧ survives 4 8 8 6 3 = true ∧
      survives 3 8 8 6 3 = false) ∧
    (survives 0 8 8 7 7 = true ∧ survives 4 8 8 7 7 = true ∧
      survives 3 8 8 7 7 = true ∧ survives 2 8 8 7 7 = false) := by
  refine ⟨?_, ?_, ?_, ?_, ?_, ?_, ?_, ?_⟩
  · intro w h x y
    simp [survives]
  · intro w h x y
    simp [survives]
  · intro w h x y
    simp [survives]
  · intro w h x y
    simp [survives]
  · intro w h x y
    simp [survives, Nat.mul_comm]
  · intro s w h x y hs
    unfold survives
    rw [if_neg (by omega), if_neg (by omega), if_neg (by omega),
      if_neg (by omega), if_neg (by omega)]
  · refine ⟨by norm_num [survives], by norm_num [survives], by norm_num [survives]⟩
  · refine ⟨by norm_num [survives], by norm_num [survives], by norm_num [survives],
      by norm_num [survives]⟩

/-- C8 witness: an unrecognized selection value (7) lets the point (0,0)
survive in an 8x8 world. -/
theorem c8_selection_predicates_witness : survives 7 8 8 0 0 = true :=
  c8_selection_predicates.2.2.2.2.2.1 7 8 8 0 0 (by norm_num)

-- ═══════════ engine lemmas ═══════════

/-- C1 (code bug): the engine stores `num_internal_neurons` (here 3) but
`Individual.__init__` builds every brain with the module constant
`NUM_INTERNAL = 4`, so the spawned individual's neuron-typed source id 5
resolves to `5 % 4 = 1` instead of `5 % 3 = 2` as the claim (and the spec's
constructor contract) requires. -/
theorem c1_num_internal_neurons_ignored :
    c1State.num_internal_neurons = 3 ∧
    (c1State.individuals.headI).brain.num_internal = 4 ∧
    (c1State.individuals.headI).brain.connections = [⟨0, 1, 1, 3, 1⟩] ∧
    5 % c1State.num_internal_neurons = 2 :=
  ⟨rfl, rfl, rfl, rfl⟩

theorem sampleTwo_spec (n a b : ℕ) (h : 2 ≤ n) :
    (sampleTwo n a b).1 ≠ (sampleTwo n a b).2 ∧
    (sampleTwo n a b).1 < n ∧ (sampleTwo n a b).2 < n := by
  have h1 : a % n < n := Nat.mod_lt _ (by omega)
  have h2 : b % (n - 1) < n - 1 := Nat.mod_lt _ (by omega)
  simp only [sampleTwo]
  split
  · exact ⟨by omega, by omega, by omega⟩
  · exact ⟨by omega, by omega, by omega⟩

/-- C9: `reproduce` always returns exactly `population_size` genomes; with no
survivors they are the fresh random genomes; with one survivor each child is
a mutated deep clone of the survivor's genome; with two or more survivors
each child is the crossover of two distinct sampled survivors followed by
exactly one `mutate` (crossover itself performs no mutation — see
`crossover_eq`). -/
theorem c9_reproduce_cases (s : SimState) (r : ReproRand) (survivors : List Individual) :
    (Simulation.reproduce s r survivors).length = s.population_size ∧
    (survivors.length = 0 →
      Simulation.reproduce s r survivors = (List.range s.population_size).map
        fun i => Genome.random s.genome_length (r.freshGene i)) ∧
    (survivors.length = 1 → ∀ i, i < s.population_size →
      (Simulation.reproduce s r survivors)[i]?
        = some (Genome.mutate (r.mutOf i) ((survivors.headI).genome.map Gene.copy))) ∧
    (2 ≤ survivors.length → ∀ i, i < s.population_size →
      (sampleTwo survivors.length (r.pickA i) (r.pickB i)).1
          ≠ (sampleTwo survivors.length (r.pickA i) (r.pickB i)).2 ∧
      (sampleTwo survivors.length (r.pickA i) (r.pickB i)).1 < survivors.length ∧
      (sampleTwo survivors.length (r.pickA i) (r.pickB i)).2 < survivors.length ∧
      (Simulation.reproduce s r survivors)[i]? = some (Genome.mutate (r.mutOf i)
        (Genome.crossover
          (r.cutA i % ((survivors.getD
            (sampleTwo survivors.length (r.pickA i) (r.pickB i)).1 default).genome.length + 1))
          (r.cutB i % ((survivors.getD
            (sampleTwo survivors.length (r.pickA i) (r.pickB i)).2 default).genome.length + 1))
          (r.fallback i)
          (survivors.getD
            (sampleTwo survivors.length (r.pickA i) (r.pickB i)).1 default).genome
          (survivors.getD
            (sampleTwo survivors.length (r.pickA i) (r.pickB i)).2 default).genome))) := by
  refine ⟨?_, ?_, ?_, ?_⟩
  · unfold Simulation.reproduce
    split
    · simp
    · split <;> simp
  · intro h0
    unfold Simulation.reproduce
    rw [if_pos h0]
  · intro h1 i hi
    unfold Simulation.reproduce
    rw [if_neg (by omega), if_pos h1]
    simp [List.getElem?_range hi]
  · intro h2 i hi
    have hfacts := sampleTwo_spec survivors.length (r.pickA i) (r.pickB i) h2
    refine ⟨hfacts.1, hfacts.2.1, hfacts.2.2, ?_⟩
    unfold Simulation.reproduce
    rw [if_neg (by omega), if_neg (by omega)]
    simp [List.getElem?_range hi]

/-- C9 witness: at the concrete engine `c9Sim` (population 3) with zero
survivors, `reproduce` returns exactly 3 fresh random genomes. -/
theorem c9_reproduce_cases_witness :
    (Simulation.reproduce c9Sim c9Repro []).length = c9Sim.population_size ∧
    Simulation.reproduce c9Sim c9Repro [] = (List.range c9Sim.population_size).map
      (fun i => Genome.random c9Sim.genome_length (c9Repro.freshGene i)) :=
  ⟨(c9_reproduce_cases c9Sim c9Repro []).1,
   (c9_reproduce_cases c9Sim c9Repro []).2.1 rfl⟩

theorem ite_fst_alive {c : Prop} [Decidable c] {v : Bool} (a b : Individual × Grid)
    (ha : a.1.alive = v) (hb : b.1.alive = v) : (ite c a b).1.alive = v := by
  split
  · exact ha
  · exact hb

theorem execute_actions_alive (ind : Individual) (outputs : ℕ → ℚ) (g : Grid)
    (r : ActRand) : (Individual.execute_actions ind outputs g r).1.alive = ind.alive :=
  ite_fst_alive _ _ rfl rfl

theorem take_step_alive (squash : ℚ → ℚ) (ind : Individual) (g : Grid)
    (step spg : ℕ) (r : StepRand) :
    (Individual.take_step squash ind g step spg r).1.alive = ind.alive := by
  simp only [Individual.take_step]
  split
  · exact execute_actions_alive _ _ _ _
  · rfl

theorem stepOne_eq_none (squash : ℚ → ℚ) (step spg : ℕ) (r : ℕ → StepRand)
    (st : List Individual × Grid) (i : ℕ) (h : st.1.get? i = none) :
    stepOne squash step spg r st i = st := by
  unfold stepOne
  rw [h]

theorem stepOne_eq_some (squash : ℚ → ℚ) (step spg : ℕ) (r : ℕ → StepRand)
    (st : List Individual × Grid) (i : ℕ) (ind0 : Individual)
    (h : st.1.get? i = some ind0) :
    stepOne squash step spg r st i =
      if ind0.alive then
        (st.1.set i (Individual.take_step squash ind0 st.2 step spg (r i)).1,
         (Individual.take_step squash ind0 st.2 step spg (r i)).2)
      else st := by
  unfold stepOne
  rw [h]

theorem stepOne_alive (squash : ℚ → ℚ) (step spg : ℕ) (r : ℕ → StepRand)
    (st : List Individual × Grid) (i : ℕ)
    (hall : ∀ ind ∈ st.1, ind.alive = true) :
    ∀ ind ∈ (stepOne squash step spg r st i).1, ind.alive = true := by
  intro ind hmem
  cases hg : st.1.get? i with
  | none =>
    rw [stepOne_eq_none squash step spg r st i hg] at hmem
    exact hall _ hmem
  | some ind0 =>
    rw [stepOne_eq_some squash step spg r st i ind0 hg] at hmem
    split at hmem
    · rcases List.mem_or_eq_of_mem_set hmem with hmem2 | heq
      · exact hall _ hmem2
      · subst heq
        rw [take_step_alive]
        exact hall ind0 (List.get?_mem hg)
    · exact hall _ hmem

theorem run_step_inv (squash : ℚ → ℚ) (r : ℕ → StepRand) {s : SimState}
    (h : AliveInv s) : AliveInv (Simulation.run_step squash s r) := by
  obtain ⟨hk, ha, hh⟩ := h
  have main : ∀ (l : List ℕ) (acc : List Individual × Grid),
      (∀ ind ∈ acc.1, ind.alive = true) →
      ∀ ind ∈ (l.foldl (stepOne squash s.current_step s.steps_per_gen r) acc).1,
        ind.alive = true := by
    intro l
    induction l with
    | nil => intro acc hacc; exact hacc
    | cons k t ih =>
      intro acc hacc
      rw [List.foldl_cons]
      exact ih _ (stepOne_alive _ _ _ _ _ _ hacc)
  exact ⟨hk, main _ _ ha, hh⟩

theorem placeIndividuals_alive (r : SpawnRand) :
    ∀ (gs : List (List Gene)) (i : ℕ) (acc : List Individual × Grid),
      (∀ ind ∈ acc.1, ind.alive = true) →
      ∀ ind ∈ (placeIndividuals r i gs acc).1, ind.alive = true := by
  intro gs
  induction gs with
  | nil =>
    intro i acc hacc
    exact hacc
  | cons g t ih =>
    intro i acc hacc
    cases acc with
    | mk inds grid =>
      apply ih
      intro ind hmem
      rcases List.mem_append.mp hmem with h1 | h2
      · exact hacc _ h1
      · rw [List.mem_singleton] at h2
        subst h2
        rfl

theorem spawn_inv (genomes : Option (List (List Gene))) (r : SpawnRand) {s : SimState}
    (h : AliveInv s) : AliveInv (Simulation.spawn_generation s genomes r) := by
  obtain ⟨hk, ha, hh⟩ := h
  refine ⟨rfl, ?_, hh⟩
  intro ind hmem
  exact placeIndividuals_alive r _ 0 _ (fun x hx => absurd hx (List.not_mem_nil x)) ind hmem

theorem run_all_inv (squash : ℚ → ℚ) (r : ℕ → ℕ → StepRand) {s : SimState}
    (h : AliveInv s) : AliveInv (Simulation.run_all_steps squash s r) := by
  unfold Simulation.run_all_steps
  have main : ∀ (l : List ℕ) (st : SimState), AliveInv st →
      AliveInv (l.foldl (fun st k => Simulation.run_step squash st (r k)) st) := by
    intro l
    induction l with
    | nil => intro st hst; exact hst
    | cons k t ih =>
      intro st hst
      rw [List.foldl_cons]
      exact ih _ (run_step_inv squash (r k) hst)
  exact main _ s h

theorem run_one_gen_inv (squash : ℚ → ℚ) (r : GenRand) {s : SimState}
    (h : AliveInv s) : AliveInv (Simulation.run_one_generation squash s r) := by
  have h1 := run_all_inv squash r.steps h
  obtain ⟨hk1, ha1, hh1⟩ := h1
  simp only [Simulation.run_one_generation]
  apply spawn_inv
  refine ⟨hk1, ha1, ?_⟩
  intro st hmem
  rcases List.mem_append.mp hmem with hm | hm
  · exact hh1 _ hm
  · rw [List.mem_singleton] at hm
    subst hm
    exact hk1

theorem run_gens_inv (squash : ℚ → ℚ) (rs : ℕ → GenRand) (n : ℕ) {s : SimState}
    (h : AliveInv s) : AliveInv (Simulation.runGenerations squash s rs n) := by
  unfold Simulation.runGenerations
  have main : ∀ (l : List ℕ) (st : SimState), AliveInv st →
      AliveInv (l.foldl (fun st k => Simulation.run_one_generation squash st (rs k)) st) := by
    intro l
    induction l with
    | nil => intro st hst; exact hst
    | cons k t ih =>
      intro st hst
      rw [List.foldl_cons]
      exact ih _ (run_one_gen_inv squash (rs k) hst)
  exact main _ s h

/-- C10: in every reachable engine state no core operation has set an
`alive` field to false or incremented `kill_count`: the kill counter is 0,
every spawned individual is alive, and every record in `history` shows
`kill_count = 0`. -/
theorem c10_alive_invariant (s : SimState) (h : Reachable s) :
    s.kill_count = 0 ∧ (∀ ind ∈ s.individuals, ind.alive = true) ∧
      (∀ st ∈ s.history, st.kill_count = 0) := by
  induction h with
  | init w h pop glen nint spg rate sel =>
    exact ⟨rfl, fun x hx => absurd hx (List.not_mem_nil x),
      fun x hx => absurd hx (List.not_mem_nil x)⟩
  | spawn genomes r _ ih => exact spawn_inv genomes r ih
  | step squash r _ ih => exact run_step_inv squash r ih
  | allSteps squash r _ ih => exact run_all_inv squash r ih
  | gen squash r _ ih => exact run_one_gen_inv squash r ih
  | runGens squash rs n _ ih => exact run_gens_inv squash rs n ih

/-- C10 witness: the invariant at the concrete reachable state `c1State`
(constructor followed by one spawn of a single genome). -/
theorem c10_alive_invariant_witness :
    c1State.kill_count = 0 ∧ (∀ ind ∈ c1State.individuals, ind.alive = true) ∧
      (∀ st ∈ c1State.history, st.kill_count = 0) :=
  c10_alive_invariant c1State
    (Reachable.spawn (some [[⟨0, 5, 1, 3, 1⟩]]) c1Spawn
      (Reachable.init 8 8 1 1 3 5 (1 / 100) 0))
